import Mathlib

/-!
Verification development for the member-verification lifecycle of the
community-management bot (src/cogs/verification.py, src/bot.py).

The Python cog keeps two in-memory dictionaries mapping user ids to
timestamps (`unverified_users`, `recently_verified_users`), mutates them
from a member-join listener, a message listener, a privileged
`verify_user` slash command, and two periodic sweep tasks
(`check_unverified_users` every 24 h, `check_verified_users_activity`
every 1 h).

The embedding below translates those handlers into pure state
transformers.  Dictionaries become association lists `List (Nat × Int)`
(user id, POSIX-style timestamp in seconds; the source compares
`datetime` differences via `total_seconds()`, so integer seconds are
faithful for whole-second inputs).  Role state of each guild member is a
list of role names.  Fallible platform calls (add/remove role, kick,
direct message, followup send) become Boolean outcome parameters: `true`
means the awaited call returned, `false` means it raised, in which case
the handler takes its `except` branch exactly as the source does.
-/

namespace VerificationBot

/-- Python dict membership `k in d` for the id-keyed timestamp dicts. -/
def dictMem (d : List (Nat × Int)) (k : Nat) : Bool :=
  d.any (fun p => p.1 = k)

/-- Python `d.get(k)`: the value at the first (unique, for a dict) key `k`. -/
def dictGet (d : List (Nat × Int)) (k : Nat) : Option Int :=
  (d.find? (fun p => p.1 = k)).map Prod.snd

/-- Python `d.pop(k, None)` / `del d[k]`: drop the entry keyed `k`. -/
def dictPop (d : List (Nat × Int)) (k : Nat) : List (Nat × Int) :=
  d.filter (fun p => p.1 ≠ k)

/-- Python `d[k] = v`: update in place when present, append otherwise. -/
def dictSet (d : List (Nat × Int)) (k : Nat) (v : Int) : List (Nat × Int) :=
  if dictMem d k then d.map (fun p => if p.1 = k then (k, v) else p)
  else d ++ [(k, v)]

/-- A dictionary-shaped association list: keys occur at most once. -/
def keysNodup (d : List (Nat × Int)) : Prop :=
  (d.map Prod.fst).Nodup

/-- `member.add_roles(r)`: the member gains role `r` (no duplicates). -/
def addRole (rs : List String) (r : String) : List String :=
  if rs.contains r then rs else rs ++ [r]

/-- `member.remove_roles(r)`: the member loses role `r`. -/
def removeRole (rs : List String) (r : String) : List String :=
  rs.filter (fun x => x ≠ r)

/-- Env default `MUST_VERIFY_ROLE_NAME` (verification.py line 22). -/
def MUST_VERIFY_ROLE_NAME : String := "MUST VERIFY"

/-- Env default `MEMBER_ROLE_NAME` (verification.py line 23). -/
def MEMBER_ROLE_NAME : String := "Member"

/-- Env default `ADMIN_ROLE_NAME` (verification.py line 24). -/
def ADMIN_ROLE_NAME : String := "Admin"

/-- Env default `MODERATOR_ROLE_NAME` (verification.py line 25). -/
def MODERATOR_ROLE_NAME : String := "Moderator"

/-- Env default `VERIFICATION_PERIOD_HOURS` (verification.py line 26). -/
def VERIFICATION_PERIOD_HOURS : Int := 24

/-- Env default `POST_ACTIVITY_PERIOD_HOURS` (verification.py line 27). -/
def POST_ACTIVITY_PERIOD_HOURS : Int := 24

/-- The mutable state of the `Verification` cog that the lifecycle touches:
per-member role names on the platform, plus the two tracking dicts
`unverified_users` and `recently_verified_users` (verification.py
lines 43-44). -/
structure CogState where
  roles : Nat → List String
  unverified_users : List (Nat × Int)
  recently_verified_users : List (Nat × Int)

/-- `on_member_join` (verification.py lines 170-191).  The early returns
(role not initialized, missing manage-roles permission) leave the state
unchanged; `member.add_roles(must_verify_role)` is awaited first and only
on its success is the join time recorded in `unverified_users`; a raise
(`discord.Forbidden` or any other exception) is caught and nothing is
recorded. -/
def on_member_join (mustVerifyInit hasManageRoles addRolesOk : Bool)
    (u : Nat) (now : Int) (s : CogState) : CogState :=
  if mustVerifyInit = false then s
  else if hasManageRoles = false then s
  else if addRolesOk = false then s
  else
    { s with
      roles := fun v => if v = u then addRole (s.roles v) MUST_VERIFY_ROLE_NAME else s.roles v,
      unverified_users := dictSet s.unverified_users u now }

/-- `on_message` (verification.py lines 193-201).  When the message is in a
guild and the author holds the Member role (`self.member_role in
message.author.roles`; `memberRoleInit = false` models the case
`self.member_role is None`, where the `in` test is false), the author is
popped from `recently_verified_users`. -/
def on_message (inGuild memberRoleInit : Bool) (author : Nat) (s : CogState) : CogState :=
  if inGuild && memberRoleInit && (s.roles author).contains MEMBER_ROLE_NAME then
    { s with recently_verified_users := dictPop s.recently_verified_users author }
  else s

/-- The `is_admin_or_moderator` check predicate (verification.py
lines 101-112): false outside a guild, otherwise true iff the name list of
the caller's roles contains the Admin or the Moderator role name. -/
def is_admin_or_moderator (inGuild : Bool) (userRoleNames : List String) : Bool :=
  if inGuild = false then false
  else userRoleNames.contains ADMIN_ROLE_NAME || userRoleNames.contains MODERATOR_ROLE_NAME

/-- Outcome of one `verify_user` invocation; every constructor except
`verifiedOk` corresponds to a user-visible message: `checkRejected` is the
reply sent by the global `bot.tree.on_error` handler (installed in
cogs/mod_cog.py and cogs/report_cog.py `setup`) when the
`is_admin_or_moderator` check fails, and the others are the
`interaction.followup.send` branches of the command body. -/
inductive CmdOutcome where
  | checkRejected
  | rolesNotSetUp
  | verifiedOk
  | verifyFailed
  | notMustVerify
deriving DecidableEq

/-- Is the outcome a rejection (anything but a successful verification)? -/
def isRejection : CmdOutcome → Bool
  | .verifiedOk => false
  | _ => true

/-- The `verify_user` slash command (verification.py lines 114-160),
including the framework-level `is_admin_or_moderator` check that runs
before the body.  `rolesInit` models `must_verify_role` and `member_role`
both being set; `removeOk`, `addOk`, `followupOk` are the outcomes of the
three awaited calls in the `try` block, in source order: on a raise the
remaining statements — including the two ledger mutations on lines
141-142 — are skipped and the `except` branch replies with an error
message. -/
def verify_user (rolesInit removeOk addOk followupOk : Bool)
    (callerInGuild : Bool) (callerRoles : List String)
    (target : Nat) (now : Int) (s : CogState) : CogState × CmdOutcome :=
  if is_admin_or_moderator callerInGuild callerRoles = false then (s, .checkRejected)
  else if rolesInit = false then (s, .rolesNotSetUp)
  else if (s.roles target).contains MUST_VERIFY_ROLE_NAME = false then (s, .notMustVerify)
  else if removeOk = false then (s, .verifyFailed)
  else
    let roles1 := fun v =>
      if v = target then removeRole (s.roles v) MUST_VERIFY_ROLE_NAME else s.roles v
    if addOk = false then ({ s with roles := roles1 }, .verifyFailed)
    else
      let roles2 := fun v =>
        if v = target then addRole (roles1 v) MEMBER_ROLE_NAME else roles1 v
      if followupOk = false then ({ s with roles := roles2 }, .verifyFailed)
      else
        ({ roles := roles2,
           unverified_users := dictPop s.unverified_users target,
           recently_verified_users := dictSet s.recently_verified_users target now },
         .verifiedOk)

/-- The shared first loop of both sweep tasks (verification.py
lines 217-224 and 254-261): iterate over a snapshot of the dict; entries
whose member is no longer found in the guild are popped (cleanup); kept
entries whose age strictly exceeds the window (in seconds, strict `>` as
in `total_seconds() > HOURS * 3600`) are appended to the action list
(`to_kick` / `to_reverify`).  Returns (dict after cleanup, action list in
iteration order). -/
def sweepScan (guild : Nat → Bool) (now window : Int) :
    List (Nat × Int) → List (Nat × Int) × List Nat
  | [] => ([], [])
  | (u, t) :: rest =>
    let r := sweepScan guild now window rest
    if guild u = false then r
    else if now - t > window then ((u, t) :: r.1, u :: r.2)
    else ((u, t) :: r.1, r.2)

/-- The kick loop of `check_unverified_users` (verification.py
lines 230-238): each member of `to_kick` is kicked independently; only
when the kick call returns is the entry deleted; a raise is caught,
logged, and leaves the entry (and the rest of the batch) alone. -/
def applyKicks (kickOk : Nat → Bool) (toKick : List Nat)
    (d : List (Nat × Int)) : List (Nat × Int) :=
  toKick.foldl (fun acc u => if kickOk u then dictPop acc u else acc) d

/-- External circumstances of one `check_unverified_users` run:
whether `get_guild` found the guild, which users `get_member` finds,
whether the bot has the kick permission, and which kick calls succeed. -/
structure KickSweepEnv where
  guildFound : Bool
  guild : Nat → Bool
  hasKickPerm : Bool
  kickOk : Nat → Bool

/-- `check_unverified_users` (verification.py lines 203-238).  Returns the
new cog state together with the list of users actually kicked.  Source
order is kept: missing guild returns unchanged; the scan loop pops
not-found members and selects expired ones; the kick-permission check
happens after the loop (so cleanup pops survive it); then the kick loop
runs per member. -/
def check_unverified_users (env : KickSweepEnv) (now : Int) (s : CogState) :
    CogState × List Nat :=
  if env.guildFound = false then (s, [])
  else
    let scanned := sweepScan env.guild now (VERIFICATION_PERIOD_HOURS * 3600) s.unverified_users
    if env.hasKickPerm = false then ({ s with unverified_users := scanned.1 }, [])
    else
      ({ s with unverified_users := applyKicks env.kickOk scanned.2 scanned.1 },
       scanned.2.filter env.kickOk)

/-- External circumstances of one `check_verified_users_activity` run:
guild lookup, member lookup, manage-roles permission, and per-user
outcomes of the three awaited calls of the demotion body. -/
structure ActivitySweepEnv where
  guildFound : Bool
  guild : Nat → Bool
  hasManageRolesPerm : Bool
  removeRolesOk : Nat → Bool
  addRolesOk : Nat → Bool
  sendOk : Nat → Bool

/-- One iteration of the demotion loop of `check_verified_users_activity`
(verification.py lines 267-279), acting on (role map, recently-verified
dict).  Source order inside the `try`: `remove_roles(member_role)`,
`add_roles(must_verify_role)`, `member.send(...)`,
`recently_verified_users.pop(member.id, None)`.  A raise at any step is
caught and skips the remaining steps of this member only — in particular
a failed direct message leaves the ledger pop unexecuted. -/
def demoteMember (env : ActivitySweepEnv)
    (rr : (Nat → List String) × List (Nat × Int)) (u : Nat) :
    (Nat → List String) × List (Nat × Int) :=
  if env.removeRolesOk u = false then rr
  else
    let roles1 := fun v => if v = u then removeRole (rr.1 v) MEMBER_ROLE_NAME else rr.1 v
    if env.addRolesOk u = false then (roles1, rr.2)
    else
      let roles2 := fun v => if v = u then addRole (roles1 v) MUST_VERIFY_ROLE_NAME else roles1 v
      if env.sendOk u = false then (roles2, rr.2)
      else (roles2, dictPop rr.2 u)

/-- `check_verified_users_activity` (verification.py lines 240-279): scan
`recently_verified_users` (cleanup pops plus selection of entries older
than the activity window), then — when the manage-roles permission is
present — demote each selected member independently.  The function never
reads or writes `unverified_users`, exactly as the source task does not
mention that dict. -/
def check_verified_users_activity (env : ActivitySweepEnv) (now : Int)
    (s : CogState) : CogState :=
  if env.guildFound = false then s
  else
    let scanned := sweepScan env.guild now (POST_ACTIVITY_PERIOD_HOURS * 3600)
      s.recently_verified_users
    if env.hasManageRolesPerm = false then
      { s with recently_verified_users := scanned.1 }
    else
      let rr := scanned.2.foldl (demoteMember env) (s.roles, scanned.1)
      { roles := rr.1,
        unverified_users := s.unverified_users,
        recently_verified_users := rr.2 }

/-- Process-level state around the cog: the two task handles and the file
system slot where a ledger snapshot would live if one were ever written.
The source has no snapshot read or write, so the slot is only here to let
the persistence claims be stated. -/
structure WorldState where
  checkUnverifiedRunning : Bool
  checkActivityRunning : Bool
  cog : CogState
  snapshotFile : Option (List (Nat × Int) × List (Nat × Int))

/-- `cog_unload` (verification.py lines 311-316): cancels the two periodic
tasks.  It performs no other effect — no serialization of the ledger and
no file write. -/
def cog_unload (w : WorldState) : WorldState :=
  { w with checkUnverifiedRunning := false, checkActivityRunning := false }

/-- `Verification.__init__` (verification.py lines 36-48): both tracking
dicts start empty.  No snapshot file is read — the `snapshot` argument is
what a load would consume, and the constructor ignores it because the
source contains no load. -/
def initCog (snapshot : Option (List (Nat × Int) × List (Nat × Int)))
    (roles : Nat → List String) : CogState :=
  let _ := snapshot
  { roles := roles, unverified_users := [], recently_verified_users := [] }

/-- A guild role: name plus permissions bitfield value. -/
structure GuildRole where
  name : String
  perms : Nat
deriving DecidableEq

/-- `_get_or_create_role` (verification.py lines 88-99): look the role up
by name; when absent create it with `discord.Permissions(permissions=0)`
and append it to the guild's roles. -/
def get_or_create_role (guildRoles : List GuildRole) (roleName : String) :
    List GuildRole × GuildRole :=
  match guildRoles.find? (fun r => r.name = roleName) with
  | some r => (guildRoles, r)
  | none => (guildRoles ++ [⟨roleName, 0⟩], ⟨roleName, 0⟩)

/-- Result of `_fetch_or_create_roles`: the guild's roles afterwards, the
four directory slots, and the error-log lines emitted. -/
structure FetchResult where
  guildRoles : List GuildRole
  must_verify_role : Option GuildRole
  member_role : Option GuildRole
  admin_role : Option GuildRole
  moderator_role : Option GuildRole
  errors : List String

/-- `_fetch_or_create_roles` (verification.py lines 73-99): the MustVerify
and Member roles go through `_get_or_create_role` (created with empty
permissions when missing); the Admin and Moderator roles are only looked
up with `discord.utils.get`, and a missing one is logged as a non-fatal
error, never created. -/
def fetch_or_create_roles (guildRoles : List GuildRole) : FetchResult :=
  let p1 := get_or_create_role guildRoles MUST_VERIFY_ROLE_NAME
  let p2 := get_or_create_role p1.1 MEMBER_ROLE_NAME
  let adminRole := p2.1.find? (fun r => r.name = ADMIN_ROLE_NAME)
  let errs1 := if adminRole.isNone then [ADMIN_ROLE_NAME ++ " role not found."] else []
  let modRole := p2.1.find? (fun r => r.name = MODERATOR_ROLE_NAME)
  let errs2 := if modRole.isNone then [(MODERATOR_ROLE_NAME ++ " role not found.")] else []
  { guildRoles := p2.1,
    must_verify_role := some p1.2,
    member_role := some p2.2,
    admin_role := adminRole,
    moderator_role := modRole,
    errors := errs1 ++ errs2 }

/-- Whole-system state for the reachability analysis: the set of user ids
currently present in the guild (what `guild.get_member` can find) and the
cog state. -/
structure SysState where
  guild : List Nat
  cog : CogState

/-- Membership test backing `guild.get_member` in the sweeps. -/
def memberOf (g : List Nat) : Nat → Bool :=
  fun u => g.contains u

/-- One event of the system, with arbitrary platform outcomes: the
member-join event (only for a user not already in the guild), the
`verify_user` command (target is a guild member), the message event, the
two periodic sweeps — whose member lookups are wired to the actual guild
set and whose successful kicks remove the kicked users from the guild —
and a member-leave event.  The cog registers no `on_member_remove`
listener, so a leave only removes the user from the guild and leaves both
tracking dicts untouched: a RecentlyVerified entry of a departed user
survives until a sweep's member-lookup cleanup happens to run. -/
inductive Step : SysState → SysState → Prop where
  | join (s : SysState) (mustVerifyInit hasManageRoles addRolesOk : Bool)
      (u : Nat) (now : Int) (hu : s.guild.contains u = false) :
      Step s ⟨u :: s.guild, on_member_join mustVerifyInit hasManageRoles addRolesOk u now s.cog⟩
  | leave (s : SysState) (u : Nat) (hu : s.guild.contains u = true) :
      Step s ⟨s.guild.filter (fun v => v ≠ u), s.cog⟩
  | verify (s : SysState) (rolesInit removeOk addOk followupOk callerInGuild : Bool)
      (callerRoles : List String) (target : Nat) (now : Int)
      (ht : s.guild.contains target = true) :
      Step s ⟨s.guild,
        (verify_user rolesInit removeOk addOk followupOk callerInGuild callerRoles
          target now s.cog).1⟩
  | message (s : SysState) (inGuild memberRoleInit : Bool) (author : Nat) :
      Step s ⟨s.guild, on_message inGuild memberRoleInit author s.cog⟩
  | kickSweep (s : SysState) (guildFound hasKickPerm : Bool) (kickOk : Nat → Bool) (now : Int) :
      Step s
        ⟨s.guild.filter (fun u =>
            ((check_unverified_users ⟨guildFound, memberOf s.guild, hasKickPerm, kickOk⟩
              now s.cog).2.contains u) = false),
         (check_unverified_users ⟨guildFound, memberOf s.guild, hasKickPerm, kickOk⟩
           now s.cog).1⟩
  | activitySweep (s : SysState) (guildFound hasManageRolesPerm : Bool)
      (removeRolesOk addRolesOk sendOk : Nat → Bool) (now : Int) :
      Step s ⟨s.guild,
        check_verified_users_activity
          ⟨guildFound, memberOf s.guild, hasManageRolesPerm, removeRolesOk, addRolesOk, sendOk⟩
          now s.cog⟩

/-- States reachable from a fresh cog (both dicts empty, as `__init__`
leaves them) over an arbitrary initial guild and role assignment, by any
sequence of events (the five triggers plus member leaves). -/
inductive Reachable : SysState → Prop where
  | init (g : List Nat) (roles : Nat → List String) :
      Reachable ⟨g, { roles := roles, unverified_users := [], recently_verified_users := [] }⟩
  | step {s t : SysState} : Reachable s → Step s t → Reachable t

/-- The disjointness property: no user id is tracked in both dicts. -/
def ledgerDisjoint (c : CogState) : Prop :=
  ∀ u : Nat, ¬(dictMem c.unverified_users u = true ∧ dictMem c.recently_verified_users u = true)

/-! ### Lemmas about the dictionary operations -/

theorem dictMem_iff (d : List (Nat × Int)) (k : Nat) :
    dictMem d k = true ↔ k ∈ d.map Prod.fst := by
  simp only [dictMem, List.any_eq_true, decide_eq_true_eq, List.mem_map]

theorem keys_map_update (d : List (Nat × Int)) (k : Nat) (v : Int) :
    (d.map (fun p => if p.1 = k then (k, v) else p)).map Prod.fst = d.map Prod.fst := by
  rw [List.map_map]
  apply List.map_congr_left
  intro p _
  by_cases hpk : p.1 = k
  · simp [hpk]
  · simp [hpk]

theorem mem_dictSet (d : List (Nat × Int)) (k j : Nat) (v : Int) :
    dictMem (dictSet d k v) j = true ↔ dictMem d j = true ∨ j = k := by
  by_cases h : dictMem d k = true
  · rw [dictSet, if_pos h, dictMem_iff, keys_map_update, ← dictMem_iff]
    constructor
    · exact Or.inl
    · rintro (hj | rfl)
      · exact hj
      · exact h
  · rw [dictSet, if_neg h, dictMem_iff, List.map_append]
    simp only [List.mem_append, List.map_cons, List.map_nil, List.mem_singleton, dictMem_iff]

theorem mem_dictPop (d : List (Nat × Int)) (k j : Nat) :
    dictMem (dictPop d k) j = true ↔ dictMem d j = true ∧ j ≠ k := by
  simp only [dictPop, dictMem, List.any_eq_true, decide_eq_true_eq, List.mem_filter]
  constructor
  · rintro ⟨p, ⟨hp, hpk⟩, rfl⟩
    exact ⟨⟨p, hp, rfl⟩, by simpa using hpk⟩
  · rintro ⟨⟨p, hp, rfl⟩, hjk⟩
    exact ⟨p, ⟨hp, by simpa using hjk⟩, rfl⟩

theorem dictGet_cons (p : Nat × Int) (rest : List (Nat × Int)) (j : Nat) :
    dictGet (p :: rest) j = if p.1 = j then some p.2 else dictGet rest j := by
  by_cases h : p.1 = j
  · simp [dictGet, List.find?, h]
  · simp [dictGet, List.find?, h]

theorem dictMem_cons (p : Nat × Int) (rest : List (Nat × Int)) (j : Nat) :
    dictMem (p :: rest) j = true ↔ p.1 = j ∨ dictMem rest j = true := by
  simp [dictMem]

theorem dictPop_cons (p : Nat × Int) (rest : List (Nat × Int)) (k : Nat) :
    dictPop (p :: rest) k = if p.1 = k then dictPop rest k else p :: dictPop rest k := by
  by_cases h : p.1 = k
  · simp [dictPop, List.filter_cons, h]
  · simp [dictPop, List.filter_cons, h]

theorem get_dictPop_ne (d : List (Nat × Int)) (k j : Nat) (h : j ≠ k) :
    dictGet (dictPop d k) j = dictGet d j := by
  induction d with
  | nil => rfl
  | cons p rest ih =>
    rw [dictPop_cons]
    by_cases hpk : p.1 = k
    · have hpj : ¬ p.1 = j := by omega
      rw [if_pos hpk, dictGet_cons, if_neg hpj, ih]
    · rw [if_neg hpk, dictGet_cons, dictGet_cons, ih]

theorem get_mem (d : List (Nat × Int)) (k : Nat) (t : Int)
    (h : dictGet d k = some t) : (k, t) ∈ d := by
  induction d with
  | nil => simp [dictGet] at h
  | cons p rest ih =>
    rw [dictGet_cons] at h
    by_cases hpk : p.1 = k
    · rw [if_pos hpk] at h
      have hp : p = (k, t) := by
        obtain ⟨a, b⟩ := p
        simp only [Option.some.injEq] at h
        simp_all
      rw [hp]
      exact List.mem_cons_self _ _
    · rw [if_neg hpk] at h
      exact List.mem_cons_of_mem _ (ih h)

theorem get_of_mem_nodup (d : List (Nat × Int)) (k : Nat) (t : Int)
    (hn : keysNodup d) (hm : (k, t) ∈ d) : dictGet d k = some t := by
  induction d with
  | nil => simp at hm
  | cons p rest ih =>
    rw [keysNodup, List.map_cons, List.nodup_cons] at hn
    rcases List.mem_cons.mp hm with heq | hmem
    · rw [dictGet_cons, ← heq, if_pos rfl]
    · have hpk : ¬ p.1 = k := by
        intro hk
        exact hn.1 (hk ▸ (List.mem_map_of_mem Prod.fst hmem : (k, t).1 ∈ rest.map Prod.fst))
      rw [dictGet_cons, if_neg hpk]
      exact ih hn.2 hmem

theorem mem_of_get (d : List (Nat × Int)) (k : Nat) (t : Int)
    (h : dictGet d k = some t) : dictMem d k = true := by
  rw [dictMem_iff]
  exact List.mem_map_of_mem Prod.fst (get_mem d k t h)

theorem get_of_mem (d : List (Nat × Int)) (k : Nat)
    (h : dictMem d k = true) : ∃ t, dictGet d k = some t := by
  induction d with
  | nil => simp [dictMem] at h
  | cons p rest ih =>
    rw [dictGet_cons]
    by_cases hpk : p.1 = k
    · exact ⟨p.2, by rw [if_pos hpk]⟩
    · rcases (dictMem_cons p rest k).mp h with hc | hc
      · exact absurd hc hpk
      · obtain ⟨t, ht⟩ := ih hc
        exact ⟨t, by rw [if_neg hpk, ht]⟩

/-! ### Lemmas about role-list operations -/

theorem contains_addRole_self (rs : List String) (r : String) :
    (addRole rs r).contains r = true := by
  simp only [addRole]
  by_cases h : r ∈ rs
  · simp [h]
  · simp [h]

theorem contains_addRole_of_ne (rs : List String) (r x : String) (h : x ≠ r) :
    (addRole rs r).contains x = rs.contains x := by
  simp only [addRole]
  by_cases hc : r ∈ rs
  · simp [hc]
  · simp [hc, h]

theorem contains_removeRole_self (rs : List String) (r : String) :
    (removeRole rs r).contains r = false := by
  simp [removeRole, List.mem_filter]

/-! ### Lemmas about the sweep scan loop -/

theorem sweepScan_cons_notFound (guild : Nat → Bool) (now window : Int)
    (u : Nat) (t : Int) (rest : List (Nat × Int)) (hg : guild u = false) :
    sweepScan guild now window ((u, t) :: rest) = sweepScan guild now window rest := by
  simp [sweepScan, hg]

theorem sweepScan_cons_expired (guild : Nat → Bool) (now window : Int)
    (u : Nat) (t : Int) (rest : List (Nat × Int))
    (hg : guild u = true) (ht : now - t > window) :
    sweepScan guild now window ((u, t) :: rest)
      = ((u, t) :: (sweepScan guild now window rest).1,
         u :: (sweepScan guild now window rest).2) := by
  simp [sweepScan, hg, ht]

theorem sweepScan_cons_fresh (guild : Nat → Bool) (now window : Int)
    (u : Nat) (t : Int) (rest : List (Nat × Int))
    (hg : guild u = true) (ht : ¬ now - t > window) :
    sweepScan guild now window ((u, t) :: rest)
      = ((u, t) :: (sweepScan guild now window rest).1,
         (sweepScan guild now window rest).2) := by
  simp [sweepScan, hg, ht]

theorem sweepScan_kept_sublist (guild : Nat → Bool) (now window : Int)
    (l : List (Nat × Int)) : (sweepScan guild now window l).1.Sublist l := by
  induction l with
  | nil => simp [sweepScan]
  | cons p rest ih =>
    obtain ⟨u, t⟩ := p
    cases hg : guild u with
    | false =>
      rw [sweepScan_cons_notFound guild now window u t rest hg]
      exact ih.cons (u, t)
    | true =>
      by_cases ht : now - t > window
      · rw [sweepScan_cons_expired guild now window u t rest hg ht]
        exact ih.cons₂ (u, t)
      · rw [sweepScan_cons_fresh guild now window u t rest hg ht]
        exact ih.cons₂ (u, t)

theorem sweepScan_sel_sublist (guild : Nat → Bool) (now window : Int)
    (l : List (Nat × Int)) : (sweepScan guild now window l).2.Sublist (l.map Prod.fst) := by
  induction l with
  | nil => simp [sweepScan]
  | cons p rest ih =>
    obtain ⟨u, t⟩ := p
    cases hg : guild u with
    | false =>
      rw [sweepScan_cons_notFound guild now window u t rest hg]
      exact ih.cons (u, t).1
    | true =>
      by_cases ht : now - t > window
      · rw [sweepScan_cons_expired guild now window u t rest hg ht]
        exact ih.cons₂ (u, t).1
      · rw [sweepScan_cons_fresh guild now window u t rest hg ht]
        exact ih.cons (u, t).1

theorem mem_sweepScan_kept (guild : Nat → Bool) (now window : Int)
    (l : List (Nat × Int)) (u : Nat)
    (h : dictMem (sweepScan guild now window l).1 u = true) : dictMem l u = true := by
  rw [dictMem_iff] at h ⊢
  exact ((sweepScan_kept_sublist guild now window l).map Prod.fst).subset h

theorem sweepScan_kept_get (guild : Nat → Bool) (now window : Int)
    (l : List (Nat × Int)) (u : Nat) (hg : guild u = true) :
    dictGet (sweepScan guild now window l).1 u = dictGet l u := by
  induction l with
  | nil => rfl
  | cons p rest ih =>
    obtain ⟨v, t⟩ := p
    cases hv : guild v with
    | false =>
      have hvu : ¬ v = u := by
        intro h
        rw [h, hg] at hv
        exact Bool.noConfusion hv
      rw [sweepScan_cons_notFound guild now window v t rest hv, dictGet_cons, if_neg hvu]
      exact ih
    | true =>
      by_cases ht : now - t > window
      · rw [sweepScan_cons_expired guild now window v t rest hv ht,
          dictGet_cons, dictGet_cons]
        by_cases hvu : v = u
        · rw [if_pos hvu, if_pos hvu]
        · rw [if_neg hvu, if_neg hvu, ih]
      · rw [sweepScan_cons_fresh guild now window v t rest hv ht,
          dictGet_cons, dictGet_cons]
        by_cases hvu : v = u
        · rw [if_pos hvu, if_pos hvu]
        · rw [if_neg hvu, if_neg hvu, ih]

theorem mem_sweepScan_sel (guild : Nat → Bool) (now window : Int)
    (l : List (Nat × Int)) (u : Nat) (h : u ∈ (sweepScan guild now window l).2) :
    ∃ t, (u, t) ∈ l ∧ guild u = true ∧ now - t > window := by
  induction l with
  | nil => simp [sweepScan] at h
  | cons p rest ih =>
    obtain ⟨v, t⟩ := p
    cases hv : guild v with
    | false =>
      rw [sweepScan_cons_notFound guild now window v t rest hv] at h
      obtain ⟨s, hs, hgu, hts⟩ := ih h
      exact ⟨s, List.mem_cons_of_mem _ hs, hgu, hts⟩
    | true =>
      by_cases ht : now - t > window
      · rw [sweepScan_cons_expired guild now window v t rest hv ht] at h
        rcases List.mem_cons.mp h with rfl | hmem
        · exact ⟨t, List.mem_cons_self _ _, hv, ht⟩
        · obtain ⟨s, hs, hgu, hts⟩ := ih hmem
          exact ⟨s, List.mem_cons_of_mem _ hs, hgu, hts⟩
      · rw [sweepScan_cons_fresh guild now window v t rest hv ht] at h
        obtain ⟨s, hs, hgu, hts⟩ := ih h
        exact ⟨s, List.mem_cons_of_mem _ hs, hgu, hts⟩

theorem sel_of_get (guild : Nat → Bool) (now window : Int)
    (l : List (Nat × Int)) (u : Nat) (t : Int)
    (hget : dictGet l u = some t) (hg : guild u = true) (ht : now - t > window) :
    u ∈ (sweepScan guild now window l).2 := by
  induction l with
  | nil => simp [dictGet] at hget
  | cons p rest ih =>
    obtain ⟨v, s⟩ := p
    rw [dictGet_cons] at hget
    by_cases hvu : v = u
    · rw [if_pos hvu] at hget
      have hs : s = t := by simpa using hget
      subst hvu
      subst hs
      rw [sweepScan_cons_expired guild now window v s rest hg ht]
      exact List.mem_cons_self _ _
    · rw [if_neg hvu] at hget
      have hmem := ih hget
      cases hv : guild v with
      | false =>
        rw [sweepScan_cons_notFound guild now window v s rest hv]
        exact hmem
      | true =>
        by_cases hts : now - s > window
        · rw [sweepScan_cons_expired guild now window v s rest hv hts]
          exact List.mem_cons_of_mem _ hmem
        · rw [sweepScan_cons_fresh guild now window v s rest hv hts]
          exact hmem

/-! ### Lemmas about the kick loop -/

theorem applyKicks_cons (kickOk : Nat → Bool) (v : Nat) (rest : List Nat)
    (d : List (Nat × Int)) :
    applyKicks kickOk (v :: rest) d
      = applyKicks kickOk rest (if kickOk v then dictPop d v else d) := rfl

theorem get_applyKicks_of_kickFail (kickOk : Nat → Bool) (l : List Nat)
    (d : List (Nat × Int)) (u : Nat) (hk : kickOk u = false) :
    dictGet (applyKicks kickOk l d) u = dictGet d u := by
  induction l generalizing d with
  | nil => rfl
  | cons v rest ih =>
    rw [applyKicks_cons]
    by_cases hv : kickOk v = true
    · have huv : u ≠ v := by
        intro h
        rw [h, hv] at hk
        exact Bool.noConfusion hk
      rw [if_pos hv, ih, get_dictPop_ne _ _ _ huv]
    · rw [if_neg (by simpa using hv), ih]

theorem mem_applyKicks (kickOk : Nat → Bool) (l : List Nat)
    (d : List (Nat × Int)) (u : Nat)
    (h : dictMem (applyKicks kickOk l d) u = true) : dictMem d u = true := by
  induction l generalizing d with
  | nil => exact h
  | cons v rest ih =>
    rw [applyKicks_cons] at h
    by_cases hv : kickOk v = true
    · rw [if_pos hv] at h
      exact ((mem_dictPop d v u).mp (ih _ h)).1
    · rw [if_neg (by simpa using hv)] at h
      exact ih _ h

theorem not_mem_applyKicks_of_not_mem (kickOk : Nat → Bool) (l : List Nat)
    (d : List (Nat × Int)) (u : Nat) (h : dictMem d u = false) :
    dictMem (applyKicks kickOk l d) u = false := by
  cases hm : dictMem (applyKicks kickOk l d) u with
  | false => rfl
  | true =>
    rw [mem_applyKicks kickOk l d u hm] at h
    exact Bool.noConfusion h

theorem not_mem_applyKicks_of_kicked (kickOk : Nat → Bool) (l : List Nat)
    (d : List (Nat × Int)) (u : Nat) (hu : u ∈ l) (hk : kickOk u = true) :
    dictMem (applyKicks kickOk l d) u = false := by
  induction l generalizing d with
  | nil => simp at hu
  | cons v rest ih =>
    rw [applyKicks_cons]
    rcases List.mem_cons.mp hu with rfl | hmem
    · rw [if_pos hk]
      apply not_mem_applyKicks_of_not_mem
      cases hm : dictMem (dictPop d u) u with
      | false => rfl
      | true => exact absurd rfl ((mem_dictPop d u u).mp hm).2
    · by_cases hv : kickOk v = true
      · rw [if_pos hv]
        exact ih _ hmem
      · rw [if_neg (by simpa using hv)]
        exact ih _ hmem

theorem not_mem_dictPop_self (d : List (Nat × Int)) (u : Nat) :
    dictMem (dictPop d u) u = false := by
  cases hm : dictMem (dictPop d u) u with
  | false => rfl
  | true => exact absurd rfl ((mem_dictPop d u u).mp hm).2

/-! ### Lemmas about the demotion loop -/

theorem demote_roles_ne (env : ActivitySweepEnv)
    (rr : (Nat → List String) × List (Nat × Int)) (v u : Nat) (h : ¬ u = v) :
    (demoteMember env rr v).1 u = rr.1 u := by
  cases h1 : env.removeRolesOk v with
  | false => simp [demoteMember, h1]
  | true =>
    cases h2 : env.addRolesOk v with
    | false => simp [demoteMember, h1, h2, h]
    | true =>
      cases h3 : env.sendOk v with
      | false => simp [demoteMember, h1, h2, h3, h]
      | true => simp [demoteMember, h1, h2, h3, h]

theorem demote_roles_self (env : ActivitySweepEnv)
    (rr : (Nat → List String) × List (Nat × Int)) (u : Nat)
    (h1 : env.removeRolesOk u = true) (h2 : env.addRolesOk u = true) :
    (demoteMember env rr u).1 u
      = addRole (removeRole (rr.1 u) MEMBER_ROLE_NAME) MUST_VERIFY_ROLE_NAME := by
  cases h3 : env.sendOk u with
  | false => simp [demoteMember, h1, h2, h3]
  | true => simp [demoteMember, h1, h2, h3]

theorem demote_recent_cases (env : ActivitySweepEnv)
    (rr : (Nat → List String) × List (Nat × Int)) (v : Nat) :
    (demoteMember env rr v).2 = rr.2 ∨ (demoteMember env rr v).2 = dictPop rr.2 v := by
  cases h1 : env.removeRolesOk v with
  | false => exact Or.inl (by simp [demoteMember, h1])
  | true =>
    cases h2 : env.addRolesOk v with
    | false => exact Or.inl (by simp [demoteMember, h1, h2])
    | true =>
      cases h3 : env.sendOk v with
      | false => exact Or.inl (by simp [demoteMember, h1, h2, h3])
      | true => exact Or.inr (by simp [demoteMember, h1, h2, h3])

theorem demote_recent_success (env : ActivitySweepEnv)
    (rr : (Nat → List String) × List (Nat × Int)) (u : Nat)
    (h1 : env.removeRolesOk u = true) (h2 : env.addRolesOk u = true)
    (h3 : env.sendOk u = true) :
    (demoteMember env rr u).2 = dictPop rr.2 u := by
  simp [demoteMember, h1, h2, h3]

theorem demote_recent_sendFail (env : ActivitySweepEnv)
    (rr : (Nat → List String) × List (Nat × Int)) (u : Nat)
    (h1 : env.removeRolesOk u = true) (h2 : env.addRolesOk u = true)
    (h3 : env.sendOk u = false) :
    (demoteMember env rr u).2 = rr.2 := by
  simp [demoteMember, h1, h2, h3]

theorem demote_get_ne (env : ActivitySweepEnv)
    (rr : (Nat → List String) × List (Nat × Int)) (v u : Nat) (h : u ≠ v) :
    dictGet (demoteMember env rr v).2 u = dictGet rr.2 u := by
  rcases demote_recent_cases env rr v with hc | hc
  · rw [hc]
  · rw [hc, get_dictPop_ne _ _ _ h]

theorem demote_mem_down (env : ActivitySweepEnv)
    (rr : (Nat → List String) × List (Nat × Int)) (v u : Nat)
    (h : dictMem (demoteMember env rr v).2 u = true) : dictMem rr.2 u = true := by
  rcases demote_recent_cases env rr v with hc | hc
  · rw [hc] at h; exact h
  · rw [hc] at h; exact ((mem_dictPop _ _ _).mp h).1

theorem demote_not_mem (env : ActivitySweepEnv)
    (rr : (Nat → List String) × List (Nat × Int)) (v u : Nat)
    (h : dictMem rr.2 u = false) : dictMem (demoteMember env rr v).2 u = false := by
  cases hm : dictMem (demoteMember env rr v).2 u with
  | false => rfl
  | true => rw [demote_mem_down env rr v u hm] at h; exact Bool.noConfusion h

theorem foldDemote_roles_not_mem (env : ActivitySweepEnv) (l : List Nat)
    (rr : (Nat → List String) × List (Nat × Int)) (u : Nat) (hu : u ∉ l) :
    (l.foldl (demoteMember env) rr).1 u = rr.1 u := by
  induction l generalizing rr with
  | nil => rfl
  | cons v rest ih =>
    rw [List.foldl_cons]
    have hne : ¬ u = v := fun h => hu (h ▸ List.mem_cons_self v rest)
    rw [ih _ (fun h => hu (List.mem_cons_of_mem v h))]
    exact demote_roles_ne env rr v u hne

theorem foldDemote_get_not_mem (env : ActivitySweepEnv) (l : List Nat)
    (rr : (Nat → List String) × List (Nat × Int)) (u : Nat) (hu : u ∉ l) :
    dictGet (l.foldl (demoteMember env) rr).2 u = dictGet rr.2 u := by
  induction l generalizing rr with
  | nil => rfl
  | cons v rest ih =>
    rw [List.foldl_cons]
    have hne : u ≠ v := fun h => hu (h ▸ List.mem_cons_self v rest)
    rw [ih _ (fun h => hu (List.mem_cons_of_mem v h))]
    exact demote_get_ne env rr v u hne

theorem foldDemote_mem_down (env : ActivitySweepEnv) (l : List Nat)
    (rr : (Nat → List String) × List (Nat × Int)) (u : Nat)
    (h : dictMem (l.foldl (demoteMember env) rr).2 u = true) :
    dictMem rr.2 u = true := by
  induction l generalizing rr with
  | nil => exact h
  | cons v rest ih =>
    rw [List.foldl_cons] at h
    exact demote_mem_down env rr v u (ih _ h)

theorem foldDemote_not_mem (env : ActivitySweepEnv) (l : List Nat)
    (rr : (Nat → List String) × List (Nat × Int)) (u : Nat)
    (h : dictMem rr.2 u = false) :
    dictMem (l.foldl (demoteMember env) rr).2 u = false := by
  cases hm : dictMem (l.foldl (demoteMember env) rr).2 u with
  | false => rfl
  | true => rw [foldDemote_mem_down env l rr u hm] at h; exact Bool.noConfusion h

theorem foldDemote_success (env : ActivitySweepEnv) (l : List Nat)
    (rr : (Nat → List String) × List (Nat × Int)) (u : Nat)
    (hu : u ∈ l) (hn : l.Nodup)
    (h1 : env.removeRolesOk u = true) (h2 : env.addRolesOk u = true)
    (h3 : env.sendOk u = true) :
    (l.foldl (demoteMember env) rr).1 u
        = addRole (removeRole (rr.1 u) MEMBER_ROLE_NAME) MUST_VERIFY_ROLE_NAME
      ∧ dictMem (l.foldl (demoteMember env) rr).2 u = false := by
  induction l generalizing rr with
  | nil => simp at hu
  | cons v rest ih =>
    rw [List.foldl_cons]
    rcases List.mem_cons.mp hu with rfl | hmem
    · have hrest : u ∉ rest := (List.nodup_cons.mp hn).1
      constructor
      · rw [foldDemote_roles_not_mem env rest _ u hrest]
        exact demote_roles_self env rr u h1 h2
      · apply foldDemote_not_mem
        rw [demote_recent_success env rr u h1 h2 h3]
        exact not_mem_dictPop_self _ _
    · have hvu : ¬ u = v := by
        intro h
        exact (List.nodup_cons.mp hn).1 (h ▸ hmem)
      have hres := ih (demoteMember env rr v) hmem (List.nodup_cons.mp hn).2
      refine ⟨?_, hres.2⟩
      rw [hres.1, demote_roles_ne env rr v u hvu]

theorem foldDemote_sendFail (env : ActivitySweepEnv) (l : List Nat)
    (rr : (Nat → List String) × List (Nat × Int)) (u : Nat)
    (hu : u ∈ l) (hn : l.Nodup)
    (h1 : env.removeRolesOk u = true) (h2 : env.addRolesOk u = true)
    (h3 : env.sendOk u = false) :
    (l.foldl (demoteMember env) rr).1 u
        = addRole (removeRole (rr.1 u) MEMBER_ROLE_NAME) MUST_VERIFY_ROLE_NAME
      ∧ dictGet (l.foldl (demoteMember env) rr).2 u = dictGet rr.2 u := by
  induction l generalizing rr with
  | nil => simp at hu
  | cons v rest ih =>
    rw [List.foldl_cons]
    rcases List.mem_cons.mp hu with rfl | hmem
    · have hrest : u ∉ rest := (List.nodup_cons.mp hn).1
      constructor
      · rw [foldDemote_roles_not_mem env rest _ u hrest]
        exact demote_roles_self env rr u h1 h2
      · rw [foldDemote_get_not_mem env rest _ u hrest,
          demote_recent_sendFail env rr u h1 h2 h3]
    · have hvu : ¬ u = v := by
        intro h
        exact (List.nodup_cons.mp hn).1 (h ▸ hmem)
      have hres := ih (demoteMember env rr v) hmem (List.nodup_cons.mp hn).2
      refine ⟨?_, ?_⟩
      · rw [hres.1, demote_roles_ne env rr v u hvu]
      · rw [hres.2, demote_get_ne env rr v u hvu]

/-! ### Branch case lemmas for the event handlers -/

theorem on_member_join_cases (a b c : Bool) (u : Nat) (now : Int) (s : CogState) :
    on_member_join a b c u now s = s
    ∨ ((on_member_join a b c u now s).unverified_users = dictSet s.unverified_users u now
       ∧ (on_member_join a b c u now s).recently_verified_users
           = s.recently_verified_users) := by
  cases a with
  | false => exact Or.inl (by simp [on_member_join])
  | true =>
    cases b with
    | false => exact Or.inl (by simp [on_member_join])
    | true =>
      cases c with
      | false => exact Or.inl (by simp [on_member_join])
      | true => exact Or.inr (by constructor <;> simp [on_member_join])

theorem on_message_cases (a b : Bool) (author : Nat) (s : CogState) :
    on_message a b author s = s
    ∨ ((on_message a b author s).unverified_users = s.unverified_users
       ∧ (on_message a b author s).recently_verified_users
           = dictPop s.recently_verified_users author) := by
  unfold on_message
  split
  · exact Or.inr ⟨rfl, rfl⟩
  · exact Or.inl rfl

theorem verify_user_ledger_cases (rolesInit removeOk addOk followupOk callerInGuild : Bool)
    (callerRoles : List String) (target : Nat) (now : Int) (s : CogState) :
    ((verify_user rolesInit removeOk addOk followupOk callerInGuild callerRoles
        target now s).1.unverified_users = s.unverified_users
      ∧ (verify_user rolesInit removeOk addOk followupOk callerInGuild callerRoles
          target now s).1.recently_verified_users = s.recently_verified_users)
    ∨ ((verify_user rolesInit removeOk addOk followupOk callerInGuild callerRoles
          target now s).1.unverified_users = dictPop s.unverified_users target
      ∧ (verify_user rolesInit removeOk addOk followupOk callerInGuild callerRoles
          target now s).1.recently_verified_users
            = dictSet s.recently_verified_users target now) := by
  unfold verify_user
  split
  · exact Or.inl ⟨rfl, rfl⟩
  · split
    · exact Or.inl ⟨rfl, rfl⟩
    · split
      · exact Or.inl ⟨rfl, rfl⟩
      · split
        · exact Or.inl ⟨rfl, rfl⟩
        · split
          · exact Or.inl ⟨rfl, rfl⟩
          · split
            · exact Or.inl ⟨rfl, rfl⟩
            · exact Or.inr ⟨rfl, rfl⟩

/-! ### Branch case lemmas for the sweep tasks -/

theorem check_unverified_recent_unchanged (env : KickSweepEnv) (now : Int) (s : CogState) :
    (check_unverified_users env now s).1.recently_verified_users
      = s.recently_verified_users := by
  cases hg : env.guildFound with
  | false => simp [check_unverified_users, hg]
  | true =>
    cases hp : env.hasKickPerm with
    | false => simp [check_unverified_users, hg, hp]
    | true => simp [check_unverified_users, hg, hp]

theorem check_unverified_roles_unchanged (env : KickSweepEnv) (now : Int) (s : CogState) :
    (check_unverified_users env now s).1.roles = s.roles := by
  cases hg : env.guildFound with
  | false => simp [check_unverified_users, hg]
  | true =>
    cases hp : env.hasKickPerm with
    | false => simp [check_unverified_users, hg, hp]
    | true => simp [check_unverified_users, hg, hp]

theorem check_unverified_mem_down (env : KickSweepEnv) (now : Int) (s : CogState) (u : Nat)
    (h : dictMem (check_unverified_users env now s).1.unverified_users u = true) :
    dictMem s.unverified_users u = true := by
  cases hg : env.guildFound with
  | false => simpa [check_unverified_users, hg] using h
  | true =>
    cases hp : env.hasKickPerm with
    | false =>
      simp only [check_unverified_users, hg, hp] at h
      simp at h
      exact mem_sweepScan_kept _ _ _ _ _ h
    | true =>
      simp only [check_unverified_users, hg, hp] at h
      simp at h
      exact mem_sweepScan_kept _ _ _ _ _ (mem_applyKicks _ _ _ _ h)

theorem check_unverified_kicked_mem (env : KickSweepEnv) (now : Int) (s : CogState) (u : Nat)
    (h : u ∈ (check_unverified_users env now s).2) :
    dictMem s.unverified_users u = true := by
  cases hg : env.guildFound with
  | false => simp [check_unverified_users, hg] at h
  | true =>
    cases hp : env.hasKickPerm with
    | false => simp [check_unverified_users, hg, hp] at h
    | true =>
      simp only [check_unverified_users, hg, hp] at h
      rw [if_neg (by simp), if_neg (by simp)] at h
      simp only [List.mem_filter] at h
      obtain ⟨t, hmem, _, _⟩ := mem_sweepScan_sel _ _ _ _ _ h.1
      rw [dictMem_iff]
      exact List.mem_map_of_mem Prod.fst hmem

theorem check_activity_unverified_unchanged (env : ActivitySweepEnv) (now : Int)
    (s : CogState) :
    (check_verified_users_activity env now s).unverified_users = s.unverified_users := by
  cases hg : env.guildFound with
  | false => simp [check_verified_users_activity, hg]
  | true =>
    cases hp : env.hasManageRolesPerm with
    | false => simp [check_verified_users_activity, hg, hp]
    | true => simp [check_verified_users_activity, hg, hp]

theorem check_activity_recent_mem_down (env : ActivitySweepEnv) (now : Int)
    (s : CogState) (u : Nat)
    (h : dictMem (check_verified_users_activity env now s).recently_verified_users u = true) :
    dictMem s.recently_verified_users u = true := by
  cases hg : env.guildFound with
  | false => simpa [check_verified_users_activity, hg] using h
  | true =>
    cases hp : env.hasManageRolesPerm with
    | false =>
      simp only [check_verified_users_activity, hg, hp] at h
      simp at h
      exact mem_sweepScan_kept _ _ _ _ _ h
    | true =>
      simp only [check_verified_users_activity, hg, hp] at h
      simp at h
      exact mem_sweepScan_kept _ _ _ _ _ (foldDemote_mem_down _ _ _ _ h)

theorem check_activity_eq (env : ActivitySweepEnv) (now : Int) (s : CogState)
    (hgf : env.guildFound = true) (hperm : env.hasManageRolesPerm = true) :
    check_verified_users_activity env now s =
      { roles := ((sweepScan env.guild now (POST_ACTIVITY_PERIOD_HOURS * 3600)
            s.recently_verified_users).2.foldl (demoteMember env)
            (s.roles, (sweepScan env.guild now (POST_ACTIVITY_PERIOD_HOURS * 3600)
              s.recently_verified_users).1)).1,
        unverified_users := s.unverified_users,
        recently_verified_users :=
          ((sweepScan env.guild now (POST_ACTIVITY_PERIOD_HOURS * 3600)
            s.recently_verified_users).2.foldl (demoteMember env)
            (s.roles, (sweepScan env.guild now (POST_ACTIVITY_PERIOD_HOURS * 3600)
              s.recently_verified_users).1)).2 } := by
  simp [check_verified_users_activity, hgf, hperm]

theorem check_unverified_eq (env : KickSweepEnv) (now : Int) (s : CogState)
    (hgf : env.guildFound = true) (hperm : env.hasKickPerm = true) :
    check_unverified_users env now s =
      ({ roles := s.roles,
         unverified_users :=
           applyKicks env.kickOk
             (sweepScan env.guild now (VERIFICATION_PERIOD_HOURS * 3600) s.unverified_users).2
             (sweepScan env.guild now (VERIFICATION_PERIOD_HOURS * 3600) s.unverified_users).1,
         recently_verified_users := s.recently_verified_users },
       (sweepScan env.guild now (VERIFICATION_PERIOD_HOURS * 3600) s.unverified_users).2.filter
         env.kickOk) := by
  simp [check_unverified_users, hgf, hperm]

theorem check_activity_roles_eq (env : ActivitySweepEnv) (now : Int) (s : CogState)
    (hgf : env.guildFound = true) (hperm : env.hasManageRolesPerm = true) :
    (check_verified_users_activity env now s).roles
      = ((sweepScan env.guild now (POST_ACTIVITY_PERIOD_HOURS * 3600)
          s.recently_verified_users).2.foldl (demoteMember env)
          (s.roles, (sweepScan env.guild now (POST_ACTIVITY_PERIOD_HOURS * 3600)
            s.recently_verified_users).1)).1 := by
  rw [check_activity_eq env now s hgf hperm]

theorem check_activity_recent_eq (env : ActivitySweepEnv) (now : Int) (s : CogState)
    (hgf : env.guildFound = true) (hperm : env.hasManageRolesPerm = true) :
    (check_verified_users_activity env now s).recently_verified_users
      = ((sweepScan env.guild now (POST_ACTIVITY_PERIOD_HOURS * 3600)
          s.recently_verified_users).2.foldl (demoteMember env)
          (s.roles, (sweepScan env.guild now (POST_ACTIVITY_PERIOD_HOURS * 3600)
            s.recently_verified_users).1)).2 := by
  rw [check_activity_eq env now s hgf hperm]

/-- C1 (amended): for every user the hourly activity sweep demotes (entry
older than the activity window, member found, all three platform calls
succeeding), the sweep adds the MustVerify role, removes the Member role
and removes the RecentlyVerified entry, but it inserts no
PendingVerification entry: `unverified_users` is returned exactly
unchanged, so the demoted user is not tracked as pending and not subject
to the verification-timeout kick. -/
theorem C1_demotion_no_repending (env : ActivitySweepEnv) (now : Int) (s : CogState)
    (u : Nat) (t : Int)
    (hn : keysNodup s.recently_verified_users)
    (hget : dictGet s.recently_verified_users u = some t)
    (hgf : env.guildFound = true)
    (hg : env.guild u = true)
    (hperm : env.hasManageRolesPerm = true)
    (ht : now - t > POST_ACTIVITY_PERIOD_HOURS * 3600)
    (h1 : env.removeRolesOk u = true) (h2 : env.addRolesOk u = true)
    (h3 : env.sendOk u = true) :
    ((check_verified_users_activity env now s).roles u).contains MUST_VERIFY_ROLE_NAME = true
    ∧ ((check_verified_users_activity env now s).roles u).contains MEMBER_ROLE_NAME = false
    ∧ dictMem (check_verified_users_activity env now s).recently_verified_users u = false
    ∧ (check_verified_users_activity env now s).unverified_users = s.unverified_users := by
  have hsel : u ∈ (sweepScan env.guild now (POST_ACTIVITY_PERIOD_HOURS * 3600)
      s.recently_verified_users).2 :=
    sel_of_get _ _ _ _ _ _ hget hg ht
  have hnodup : (sweepScan env.guild now (POST_ACTIVITY_PERIOD_HOURS * 3600)
      s.recently_verified_users).2.Nodup :=
    List.Nodup.sublist (sweepScan_sel_sublist env.guild now
      (POST_ACTIVITY_PERIOD_HOURS * 3600) s.recently_verified_users) hn
  have hmain := foldDemote_success env _
    (s.roles, (sweepScan env.guild now (POST_ACTIVITY_PERIOD_HOURS * 3600)
      s.recently_verified_users).1) u hsel hnodup h1 h2 h3
  refine ⟨?_, ?_, ?_, check_activity_unverified_unchanged env now s⟩
  · rw [check_activity_roles_eq env now s hgf hperm, hmain.1]
    exact contains_addRole_self _ _
  · rw [check_activity_roles_eq env now s hgf hperm, hmain.1,
      contains_addRole_of_ne _ _ _ (by decide)]
    exact contains_removeRole_self _ _
  · rw [check_activity_recent_eq env now s hgf hperm]
    exact hmain.2

/-- C1 witness: concrete instance of the amended demotion theorem (user 1,
promoted at time 0, sweep at time 90000, every platform call succeeding). -/
theorem C1_demotion_no_repending_witness :
    ((check_verified_users_activity
        ⟨true, fun _ => true, true, fun _ => true, fun _ => true, fun _ => true⟩ 90000
        ⟨fun _ => [MEMBER_ROLE_NAME], [(7, 5)], [(1, 0)]⟩).roles 1).contains
          MUST_VERIFY_ROLE_NAME = true
    ∧ ((check_verified_users_activity
        ⟨true, fun _ => true, true, fun _ => true, fun _ => true, fun _ => true⟩ 90000
        ⟨fun _ => [MEMBER_ROLE_NAME], [(7, 5)], [(1, 0)]⟩).roles 1).contains
          MEMBER_ROLE_NAME = false
    ∧ dictMem (check_verified_users_activity
        ⟨true, fun _ => true, true, fun _ => true, fun _ => true, fun _ => true⟩ 90000
        ⟨fun _ => [MEMBER_ROLE_NAME], [(7, 5)], [(1, 0)]⟩).recently_verified_users 1 = false
    ∧ (check_verified_users_activity
        ⟨true, fun _ => true, true, fun _ => true, fun _ => true, fun _ => true⟩ 90000
        ⟨fun _ => [MEMBER_ROLE_NAME], [(7, 5)], [(1, 0)]⟩).unverified_users = [(7, 5)] :=
  C1_demotion_no_repending
    ⟨true, fun _ => true, true, fun _ => true, fun _ => true, fun _ => true⟩ 90000
    ⟨fun _ => [MEMBER_ROLE_NAME], [(7, 5)], [(1, 0)]⟩ 1 0
    (by unfold keysNodup; decide) (by decide) rfl rfl rfl (by decide) rfl rfl rfl

/-- C1 counterexample: at a concrete demotion (user 1 in RecentlyVerified
since time 0, hourly sweep at time 90000, all platform calls succeeding)
the user is demoted — MustVerify added, RecentlyVerified entry removed —
yet `unverified_users` does not receive the user: the ledger entry is not
moved to PendingVerification, contrary to the claim. -/
theorem C1_counterexample :
    dictMem (check_verified_users_activity
        ⟨true, fun _ => true, true, fun _ => true, fun _ => true, fun _ => true⟩ 90000
        ⟨fun _ => [MEMBER_ROLE_NAME], [], [(1, 0)]⟩).unverified_users 1 = false
    ∧ dictMem (check_verified_users_activity
        ⟨true, fun _ => true, true, fun _ => true, fun _ => true, fun _ => true⟩ 90000
        ⟨fun _ => [MEMBER_ROLE_NAME], [], [(1, 0)]⟩).recently_verified_users 1 = false
    ∧ ((check_verified_users_activity
        ⟨true, fun _ => true, true, fun _ => true, fun _ => true, fun _ => true⟩ 90000
        ⟨fun _ => [MEMBER_ROLE_NAME], [], [(1, 0)]⟩).roles 1).contains
          MUST_VERIFY_ROLE_NAME = true := by
  refine ⟨?_, ?_, ?_⟩ <;> decide

/-- C9 (amended): when the direct-message send raises during an
activity-timeout demotion (the two role calls having succeeded), the role
changes stand — the user ends with MustVerify and without Member — but the
RecentlyVerified ledger entry is NOT removed: it keeps its timestamp and
the user is selected again by any later activity sweep that still finds
the member. -/
theorem C9_dm_failure_keeps_entry (env : ActivitySweepEnv) (now : Int) (s : CogState)
    (u : Nat) (t : Int)
    (hn : keysNodup s.recently_verified_users)
    (hget : dictGet s.recently_verified_users u = some t)
    (hgf : env.guildFound = true)
    (hg : env.guild u = true)
    (hperm : env.hasManageRolesPerm = true)
    (ht : now - t > POST_ACTIVITY_PERIOD_HOURS * 3600)
    (h1 : env.removeRolesOk u = true) (h2 : env.addRolesOk u = true)
    (h3 : env.sendOk u = false) :
    ((check_verified_users_activity env now s).roles u).contains MUST_VERIFY_ROLE_NAME = true
    ∧ ((check_verified_users_activity env now s).roles u).contains MEMBER_ROLE_NAME = false
    ∧ dictGet (check_verified_users_activity env now s).recently_verified_users u = some t
    ∧ (∀ now2 : Int, ∀ g2 : Nat → Bool, g2 u = true →
        now2 - t > POST_ACTIVITY_PERIOD_HOURS * 3600 →
        u ∈ (sweepScan g2 now2 (POST_ACTIVITY_PERIOD_HOURS * 3600)
              (check_verified_users_activity env now s).recently_verified_users).2) := by
  have hsel : u ∈ (sweepScan env.guild now (POST_ACTIVITY_PERIOD_HOURS * 3600)
      s.recently_verified_users).2 :=
    sel_of_get _ _ _ _ _ _ hget hg ht
  have hnodup : (sweepScan env.guild now (POST_ACTIVITY_PERIOD_HOURS * 3600)
      s.recently_verified_users).2.Nodup :=
    List.Nodup.sublist (sweepScan_sel_sublist env.guild now
      (POST_ACTIVITY_PERIOD_HOURS * 3600) s.recently_verified_users) hn
  have hmain := foldDemote_sendFail env _
    (s.roles, (sweepScan env.guild now (POST_ACTIVITY_PERIOD_HOURS * 3600)
      s.recently_verified_users).1) u hsel hnodup h1 h2 h3
  have hkeep : dictGet (check_verified_users_activity env now s).recently_verified_users u
      = some t := by
    rw [check_activity_recent_eq env now s hgf hperm, hmain.2,
      sweepScan_kept_get env.guild now (POST_ACTIVITY_PERIOD_HOURS * 3600)
        s.recently_verified_users u hg]
    exact hget
  refine ⟨?_, ?_, hkeep, ?_⟩
  · rw [check_activity_roles_eq env now s hgf hperm, hmain.1]
    exact contains_addRole_self _ _
  · rw [check_activity_roles_eq env now s hgf hperm, hmain.1,
      contains_addRole_of_ne _ _ _ (by decide)]
    exact contains_removeRole_self _ _
  · intro now2 g2 hg2 ht2
    exact sel_of_get _ _ _ _ _ _ hkeep hg2 ht2

/-- C9 witness: concrete instance of the amended theorem (user 1, promoted
at time 0, sweep at time 90000, role calls succeed, the DM send raises;
selected again at time 180000 by a sweep that finds the member). -/
theorem C9_dm_failure_keeps_entry_witness :
    ((check_verified_users_activity
        ⟨true, fun _ => true, true, fun _ => true, fun _ => true, fun _ => false⟩ 90000
        ⟨fun _ => [MEMBER_ROLE_NAME], [], [(1, 0)]⟩).roles 1).contains
          MUST_VERIFY_ROLE_NAME = true
    ∧ ((check_verified_users_activity
        ⟨true, fun _ => true, true, fun _ => true, fun _ => true, fun _ => false⟩ 90000
        ⟨fun _ => [MEMBER_ROLE_NAME], [], [(1, 0)]⟩).roles 1).contains
          MEMBER_ROLE_NAME = false
    ∧ dictGet (check_verified_users_activity
        ⟨true, fun _ => true, true, fun _ => true, fun _ => true, fun _ => false⟩ 90000
        ⟨fun _ => [MEMBER_ROLE_NAME], [], [(1, 0)]⟩).recently_verified_users 1 = some 0
    ∧ 1 ∈ (sweepScan (fun _ => true) 180000 (POST_ACTIVITY_PERIOD_HOURS * 3600)
        (check_verified_users_activity
          ⟨true, fun _ => true, true, fun _ => true, fun _ => true, fun _ => false⟩ 90000
          ⟨fun _ => [MEMBER_ROLE_NAME], [], [(1, 0)]⟩).recently_verified_users).2 := by
  have h := C9_dm_failure_keeps_entry
    ⟨true, fun _ => true, true, fun _ => true, fun _ => true, fun _ => false⟩ 90000
    ⟨fun _ => [MEMBER_ROLE_NAME], [], [(1, 0)]⟩ 1 0
    (by unfold keysNodup; decide) (by decide) rfl rfl rfl (by decide) rfl rfl rfl
  exact ⟨h.1, h.2.1, h.2.2.1, h.2.2.2 180000 (fun _ => true) rfl (by decide)⟩

/-- C9 counterexample: at a concrete demotion where the DM send raises
(user 1 in RecentlyVerified since time 0, sweep at time 90000, role calls
succeed), the RecentlyVerified entry is still present after the sweep —
so the claim that the entry is removed even when the send raises is
false. -/
theorem C9_counterexample :
    dictMem (check_verified_users_activity
        ⟨true, fun _ => true, true, fun _ => true, fun _ => true, fun _ => false⟩ 90000
        ⟨fun _ => [MEMBER_ROLE_NAME], [], [(1, 0)]⟩).recently_verified_users 1 = true
    ∧ ((check_verified_users_activity
        ⟨true, fun _ => true, true, fun _ => true, fun _ => true, fun _ => false⟩ 90000
        ⟨fun _ => [MEMBER_ROLE_NAME], [], [(1, 0)]⟩).roles 1).contains
          MUST_VERIFY_ROLE_NAME = true := by
  refine ⟨?_, ?_⟩ <;> decide

theorem not_sel_of_get_not_expired (g : Nat → Bool) (now w : Int) (u : Nat)
    (pending : List (Nat × Int)) (t : Int)
    (hn : keysNodup pending) (hget : dictGet pending u = some t)
    (hle : ¬ now - t > w) : u ∉ (sweepScan g now w pending).2 := by
  intro hmem
  obtain ⟨t2, ht2mem, _, hgt⟩ := mem_sweepScan_sel _ _ _ _ _ hmem
  have hg2 := get_of_mem_nodup pending u t2 hn ht2mem
  rw [hget] at hg2
  injection hg2 with heq
  rw [← heq] at hgt
  exact hle hgt

/-- C3: during the 24-hour kick sweep a PendingVerification entry is
removed only after the kick on that user succeeds.  When the kick raises
(`kickOk u = false`), the entry survives the sweep with its original
timestamp, the same user is selected again by any later sweep that finds
the member (at-least-once retry), and the failure does not abort the rest
of the batch: any other expired, found user whose kick succeeds is still
removed. -/
theorem C3_kick_retry (env : KickSweepEnv) (now now2 : Int) (g2 : Nat → Bool)
    (s : CogState) (u : Nat) (t : Int)
    (hgf : env.guildFound = true) (hperm : env.hasKickPerm = true)
    (hget : dictGet s.unverified_users u = some t)
    (hg : env.guild u = true)
    (ht : now - t > VERIFICATION_PERIOD_HOURS * 3600)
    (hk : env.kickOk u = false) :
    u ∈ (sweepScan env.guild now (VERIFICATION_PERIOD_HOURS * 3600) s.unverified_users).2
    ∧ dictGet (check_unverified_users env now s).1.unverified_users u = some t
    ∧ (g2 u = true → now2 - t > VERIFICATION_PERIOD_HOURS * 3600 →
        u ∈ (sweepScan g2 now2 (VERIFICATION_PERIOD_HOURS * 3600)
              (check_unverified_users env now s).1.unverified_users).2)
    ∧ (∀ v tv, dictGet s.unverified_users v = some tv → env.guild v = true →
        now - tv > VERIFICATION_PERIOD_HOURS * 3600 → env.kickOk v = true →
        dictMem (check_unverified_users env now s).1.unverified_users v = false) := by
  have hpend : (check_unverified_users env now s).1.unverified_users
      = applyKicks env.kickOk
          (sweepScan env.guild now (VERIFICATION_PERIOD_HOURS * 3600) s.unverified_users).2
          (sweepScan env.guild now (VERIFICATION_PERIOD_HOURS * 3600) s.unverified_users).1 := by
    rw [check_unverified_eq env now s hgf hperm]
  have hget1 : dictGet (check_unverified_users env now s).1.unverified_users u = some t := by
    rw [hpend, get_applyKicks_of_kickFail _ _ _ _ hk,
      sweepScan_kept_get env.guild now _ s.unverified_users u hg]
    exact hget
  refine ⟨sel_of_get _ _ _ _ _ _ hget hg ht, hget1, ?_, ?_⟩
  · intro hg2 ht2
    exact sel_of_get _ _ _ _ _ _ hget1 hg2 ht2
  · intro v tv hgetv hgv htv hkv
    rw [hpend]
    exact not_mem_applyKicks_of_kicked env.kickOk _ _ v
      (sel_of_get _ _ _ _ _ _ hgetv hgv htv) hkv

/-- C3 witness: concrete instance — users 1 and 2 both expired at a sweep
at time 90000; the kick on user 1 raises, the kick on user 2 succeeds:
user 1 keeps its entry and is selected again at time 180000, user 2 is
removed. -/
theorem C3_kick_retry_witness :
    1 ∈ (sweepScan (fun _ => true) 90000 (VERIFICATION_PERIOD_HOURS * 3600)
        [(1, 0), (2, 0)]).2
    ∧ dictGet (check_unverified_users ⟨true, fun _ => true, true, fun x => x == 2⟩ 90000
        ⟨fun _ => [], [(1, 0), (2, 0)], []⟩).1.unverified_users 1 = some 0
    ∧ 1 ∈ (sweepScan (fun _ => true) 180000 (VERIFICATION_PERIOD_HOURS * 3600)
        (check_unverified_users ⟨true, fun _ => true, true, fun x => x == 2⟩ 90000
          ⟨fun _ => [], [(1, 0), (2, 0)], []⟩).1.unverified_users).2
    ∧ dictMem (check_unverified_users ⟨true, fun _ => true, true, fun x => x == 2⟩ 90000
        ⟨fun _ => [], [(1, 0), (2, 0)], []⟩).1.unverified_users 2 = false := by
  have h := C3_kick_retry ⟨true, fun _ => true, true, fun x => x == 2⟩ 90000 180000
    (fun _ => true) ⟨fun _ => [], [(1, 0), (2, 0)], []⟩ 1 0 rfl rfl (by decide) rfl
    (by decide) rfl
  exact ⟨h.1, h.2.1, h.2.2.1 rfl (by decide), h.2.2.2 2 0 (by decide) rfl (by decide) rfl⟩

/-- C4 (amended): the 24-hour sweep uses a strict age comparison
(`total_seconds() > VERIFICATION_PERIOD_HOURS * 3600`), so a
PendingVerification entry whose timestamp is exactly
`now - VERIFICATION_PERIOD_HOURS` hours is EXCLUDED from the selection at
time `now`, an entry one second younger than the boundary is excluded as
well, and an entry one second older than the boundary is included
(when the member is found). -/
theorem C4_timeout_boundary (g : Nat → Bool) (now : Int) (u : Nat)
    (pending : List (Nat × Int)) (hn : keysNodup pending) :
    (dictGet pending u = some (now - VERIFICATION_PERIOD_HOURS * 3600) →
        u ∉ (sweepScan g now (VERIFICATION_PERIOD_HOURS * 3600) pending).2)
    ∧ (dictGet pending u = some (now - VERIFICATION_PERIOD_HOURS * 3600 + 1) →
        u ∉ (sweepScan g now (VERIFICATION_PERIOD_HOURS * 3600) pending).2)
    ∧ (dictGet pending u = some (now - VERIFICATION_PERIOD_HOURS * 3600 - 1) →
        g u = true →
        u ∈ (sweepScan g now (VERIFICATION_PERIOD_HOURS * 3600) pending).2) := by
  refine ⟨?_, ?_, ?_⟩
  · intro hget
    exact not_sel_of_get_not_expired g now _ u pending _ hn hget (by omega)
  · intro hget
    exact not_sel_of_get_not_expired g now _ u pending _ hn hget (by omega)
  · intro hget hg
    exact sel_of_get _ _ _ _ _ _ hget hg (by omega)

/-- C4 witness: concrete boundary instances at `now = 172800` with the
default 24-hour window: timestamp 86400 (exactly at the boundary) and
86401 (one second younger) are excluded; 86399 (one second older) is
selected. -/
theorem C4_timeout_boundary_witness :
    (1 ∉ (sweepScan (fun _ => true) 172800 (VERIFICATION_PERIOD_HOURS * 3600)
        [(1, 86400)]).2)
    ∧ (1 ∉ (sweepScan (fun _ => true) 172800 (VERIFICATION_PERIOD_HOURS * 3600)
        [(1, 86401)]).2)
    ∧ (1 ∈ (sweepScan (fun _ => true) 172800 (VERIFICATION_PERIOD_HOURS * 3600)
        [(1, 86399)]).2) := by
  refine ⟨?_, ?_, ?_⟩
  · exact (C4_timeout_boundary (fun _ => true) 172800 1 [(1, 86400)]
      (by unfold keysNodup; decide)).1 (by decide)
  · exact (C4_timeout_boundary (fun _ => true) 172800 1 [(1, 86401)]
      (by unfold keysNodup; decide)).2.1 (by decide)
  · exact (C4_timeout_boundary (fun _ => true) 172800 1 [(1, 86399)]
      (by unfold keysNodup; decide)).2.2 (by decide) rfl

/-- C4 counterexample: the claim says an entry with timestamp exactly
`now - VERIFICATION_PERIOD_HOURS` is included in the selection; at
`now = 172800` with timestamp `86400` (exactly 24 hours old) the user is
NOT selected, because the source compares with strict `>`. -/
theorem C4_counterexample :
    ¬ (1 ∈ (sweepScan (fun _ => true) 172800 (VERIFICATION_PERIOD_HOURS * 3600)
        [(1, 86400)]).2) := by
  decide

/-- C10: when the MustVerify role assignment raises during
`on_member_join`, the exception is caught and the ledger is not mutated:
the cog state is returned entirely unchanged, so a user who was not
already pending is not selected by a later verification-timeout sweep. -/
theorem C10_join_rollback (mvInit perm : Bool) (u : Nat) (now : Int) (s : CogState)
    (g : Nat → Bool) (now2 : Int)
    (hmem : dictMem s.unverified_users u = false) :
    on_member_join mvInit perm false u now s = s
    ∧ u ∉ (sweepScan g now2 (VERIFICATION_PERIOD_HOURS * 3600)
        (on_member_join mvInit perm false u now s).unverified_users).2 := by
  have heq : on_member_join mvInit perm false u now s = s := by
    cases mvInit with
    | false => simp [on_member_join]
    | true =>
      cases perm with
      | false => simp [on_member_join]
      | true => simp [on_member_join]
  refine ⟨heq, ?_⟩
  intro hsel
  rw [heq] at hsel
  obtain ⟨t, htmem, _, _⟩ := mem_sweepScan_sel _ _ _ _ _ hsel
  have hm : dictMem s.unverified_users u = true := by
    rw [dictMem_iff]
    exact List.mem_map_of_mem Prod.fst htmem
  rw [hm] at hmem
  exact Bool.noConfusion hmem

/-- C10 witness: concrete instance — a join for user 1 whose role
assignment raises leaves the empty state untouched and the user is not
selected by a much later sweep. -/
theorem C10_join_rollback_witness :
    on_member_join true true false 1 50 ⟨fun _ => [], [], []⟩ = ⟨fun _ => [], [], []⟩
    ∧ 1 ∉ (sweepScan (fun _ => true) 999999 (VERIFICATION_PERIOD_HOURS * 3600)
        (on_member_join true true false 1 50 ⟨fun _ => [], [], []⟩).unverified_users).2 :=
  C10_join_rollback true true 1 50 ⟨fun _ => [], [], []⟩ (fun _ => true) 999999 rfl

/-- C2 counterexample: a reachable system state with the same user id in
both tracking dicts.  User 1 joins at time 0, is verified at time 10,
leaves the guild — the cog has no member-remove listener, so the
RecentlyVerified entry survives — and rejoins at time 20 before any sweep
runs: the rejoin handler inserts user 1 into `unverified_users`
(verification.py line 186) while the `recently_verified_users` entry from
time 10 persists, so the claimed disjointness fails on a reachable
state. -/
theorem C2_counterexample :
    Reachable ⟨[1], on_member_join true true true 1 20
        (verify_user true true true true true [ADMIN_ROLE_NAME] 1 10
          (on_member_join true true true 1 0 ⟨fun _ => [], [], []⟩)).1⟩
    ∧ dictMem (on_member_join true true true 1 20
        (verify_user true true true true true [ADMIN_ROLE_NAME] 1 10
          (on_member_join true true true 1 0
            ⟨fun _ => [], [], []⟩)).1).unverified_users 1 = true
    ∧ dictMem (on_member_join true true true 1 20
        (verify_user true true true true true [ADMIN_ROLE_NAME] 1 10
          (on_member_join true true true 1 0
            ⟨fun _ => [], [], []⟩)).1).recently_verified_users 1 = true := by
  refine ⟨?_, by decide, by decide⟩
  exact Reachable.step
    (Reachable.step
      (Reachable.step
        (Reachable.step (Reachable.init [] (fun _ => []))
          (Step.join _ true true true 1 0 (by decide)))
        (Step.verify _ true true true true true [ADMIN_ROLE_NAME] 1 10 (by decide)))
      (Step.leave _ 1 (by decide)))
    (Step.join _ true true true 1 20 (by decide))

/-- C2 (amended): ExplicitVerify, ActivityProof and the two sweeps each
map a disjoint ledger to a disjoint ledger, and Join preserves
disjointness when the joining user is not tracked in
`recently_verified_users`; Join does NOT preserve it in general — a join
for a user still tracked there (a verified member who left and rejoined
before the hourly sweep cleaned the stale entry; the cog handles no
member-remove event) puts the user into `unverified_users` while the
`recently_verified_users` entry persists, leaving the same user id in
both sets. -/
theorem C2_trigger_disjointness :
    (∀ (a b c : Bool) (u : Nat) (now : Int) (s : CogState),
        ledgerDisjoint s → dictMem s.recently_verified_users u = false →
        ledgerDisjoint (on_member_join a b c u now s))
    ∧ (∀ (u : Nat) (now : Int) (s : CogState),
        dictMem s.recently_verified_users u = true →
        dictMem (on_member_join true true true u now s).unverified_users u = true
        ∧ dictMem (on_member_join true true true u now s).recently_verified_users u = true)
    ∧ (∀ (rolesInit removeOk addOk followupOk callerInGuild : Bool)
        (callerRoles : List String) (target : Nat) (now : Int) (s : CogState),
        ledgerDisjoint s →
        ledgerDisjoint (verify_user rolesInit removeOk addOk followupOk callerInGuild
          callerRoles target now s).1)
    ∧ (∀ (a b : Bool) (author : Nat) (s : CogState),
        ledgerDisjoint s → ledgerDisjoint (on_message a b author s))
    ∧ (∀ (env : KickSweepEnv) (now : Int) (s : CogState),
        ledgerDisjoint s → ledgerDisjoint (check_unverified_users env now s).1)
    ∧ (∀ (env : ActivitySweepEnv) (now : Int) (s : CogState),
        ledgerDisjoint s → ledgerDisjoint (check_verified_users_activity env now s)) := by
  refine ⟨?_, ?_, ?_, ?_, ?_, ?_⟩
  · intro a b c u now s hd hr
    rcases on_member_join_cases a b c u now s with heq | ⟨hU, hR⟩
    · rw [heq]
      exact hd
    · intro v hv
      obtain ⟨h1, h2⟩ := hv
      rw [hU] at h1
      rw [hR] at h2
      rcases (mem_dictSet _ _ _ _).mp h1 with hm | rfl
      · exact hd v ⟨hm, h2⟩
      · rw [h2] at hr
        exact Bool.noConfusion hr
  · intro u now s hr
    have hU : (on_member_join true true true u now s).unverified_users
        = dictSet s.unverified_users u now := by
      simp [on_member_join]
    have hR : (on_member_join true true true u now s).recently_verified_users
        = s.recently_verified_users := by
      simp [on_member_join]
    refine ⟨?_, ?_⟩
    · rw [hU]
      exact (mem_dictSet _ _ _ _).mpr (Or.inr rfl)
    · rw [hR]
      exact hr
  · intro rolesInit removeOk addOk followupOk callerInGuild callerRoles target now s hd
    rcases verify_user_ledger_cases rolesInit removeOk addOk followupOk callerInGuild
        callerRoles target now s with ⟨hU, hR⟩ | ⟨hU, hR⟩
    · intro v hv
      obtain ⟨h1, h2⟩ := hv
      rw [hU] at h1
      rw [hR] at h2
      exact hd v ⟨h1, h2⟩
    · intro v hv
      obtain ⟨h1, h2⟩ := hv
      rw [hU] at h1
      rw [hR] at h2
      obtain ⟨hm1, hne⟩ := (mem_dictPop _ _ _).mp h1
      rcases (mem_dictSet _ _ _ _).mp h2 with hm2 | rfl
      · exact hd v ⟨hm1, hm2⟩
      · exact hne rfl
  · intro a b author s hd
    rcases on_message_cases a b author s with heq | ⟨hU, hR⟩
    · rw [heq]
      exact hd
    · intro v hv
      obtain ⟨h1, h2⟩ := hv
      rw [hU] at h1
      rw [hR] at h2
      exact hd v ⟨h1, ((mem_dictPop _ _ _).mp h2).1⟩
  · intro env now s hd v hv
    obtain ⟨h1, h2⟩ := hv
    rw [check_unverified_recent_unchanged] at h2
    exact hd v ⟨check_unverified_mem_down _ _ _ _ h1, h2⟩
  · intro env now s hd v hv
    obtain ⟨h1, h2⟩ := hv
    rw [check_activity_unverified_unchanged] at h1
    exact hd v ⟨h1, check_activity_recent_mem_down _ _ _ _ h2⟩

/-- C2 witness: concrete instances of the amended theorem — a join into a
fresh ledger stays disjoint; a rejoin of user 1 while still in
RecentlyVerified puts user 1 in both dicts; a verify, a message, a kick
sweep and an activity sweep each keep a concrete disjoint ledger
disjoint. -/
theorem C2_trigger_disjointness_witness :
    ledgerDisjoint (on_member_join true true true 1 0 ⟨fun _ => [], [], []⟩)
    ∧ (dictMem (on_member_join true true true 1 20
          ⟨fun _ => [], [], [(1, 10)]⟩).unverified_users 1 = true
        ∧ dictMem (on_member_join true true true 1 20
          ⟨fun _ => [], [], [(1, 10)]⟩).recently_verified_users 1 = true)
    ∧ ledgerDisjoint (verify_user true true true true true [ADMIN_ROLE_NAME] 1 10
        ⟨fun _ => [MUST_VERIFY_ROLE_NAME], [(1, 0)], []⟩).1
    ∧ ledgerDisjoint (on_message true true 1 ⟨fun _ => [MEMBER_ROLE_NAME], [], [(1, 0)]⟩)
    ∧ ledgerDisjoint (check_unverified_users ⟨true, fun _ => true, true, fun _ => true⟩
        90000 ⟨fun _ => [], [(1, 0)], []⟩).1
    ∧ ledgerDisjoint (check_verified_users_activity
        ⟨true, fun _ => true, true, fun _ => true, fun _ => true, fun _ => true⟩
        90000 ⟨fun _ => [], [], [(1, 0)]⟩) := by
  have h := C2_trigger_disjointness
  refine ⟨h.1 true true true 1 0 ⟨fun _ => [], [], []⟩ ?_ rfl,
    h.2.1 1 20 ⟨fun _ => [], [], [(1, 10)]⟩ rfl,
    h.2.2.1 true true true true true [ADMIN_ROLE_NAME] 1 10
      ⟨fun _ => [MUST_VERIFY_ROLE_NAME], [(1, 0)], []⟩ ?_,
    h.2.2.2.1 true true 1 ⟨fun _ => [MEMBER_ROLE_NAME], [], [(1, 0)]⟩ ?_,
    h.2.2.2.2.1 ⟨true, fun _ => true, true, fun _ => true⟩ 90000
      ⟨fun _ => [], [(1, 0)], []⟩ ?_,
    h.2.2.2.2.2 ⟨true, fun _ => true, true, fun _ => true, fun _ => true, fun _ => true⟩
      90000 ⟨fun _ => [], [], [(1, 0)]⟩ ?_⟩
  · intro v hv
    simp [dictMem] at hv
  · intro v hv
    obtain ⟨h1, h2⟩ := hv
    simp [dictMem] at h2
  · intro v hv
    obtain ⟨h1, h2⟩ := hv
    simp [dictMem] at h1
  · intro v hv
    obtain ⟨h1, h2⟩ := hv
    simp [dictMem] at h2
  · intro v hv
    obtain ⟨h1, h2⟩ := hv
    simp [dictMem] at h1

/-! ### Idempotence of the dict assignment at a fixed value -/

theorem get_map_update_self (d : List (Nat × Int)) (k : Nat) (v : Int)
    (h : dictMem d k = true) :
    dictGet (d.map (fun p => if p.1 = k then (k, v) else p)) k = some v := by
  induction d with
  | nil => simp [dictMem] at h
  | cons p rest ih =>
    rw [List.map_cons, dictGet_cons]
    by_cases hpk : p.1 = k
    · simp [hpk]
    · have hc : ¬ ((if p.1 = k then ((k : Nat), v) else p).1 = k) := by simp [hpk]
      rw [if_neg hc]
      apply ih
      rcases (dictMem_cons p rest k).mp h with hc2 | hc2
      · exact absurd hc2 hpk
      · exact hc2

theorem get_append_self (d : List (Nat × Int)) (k : Nat) (v : Int)
    (h : dictMem d k = false) :
    dictGet (d ++ [(k, v)]) k = some v := by
  induction d with
  | nil => simp [dictGet_cons]
  | cons p rest ih =>
    rw [List.cons_append, dictGet_cons]
    have hpk : ¬ p.1 = k := by
      intro he
      rw [(dictMem_cons p rest k).mpr (Or.inl he)] at h
      exact Bool.noConfusion h
    rw [if_neg hpk]
    apply ih
    cases hm : dictMem rest k with
    | false => rfl
    | true =>
      rw [(dictMem_cons p rest k).mpr (Or.inr hm)] at h
      exact Bool.noConfusion h

theorem get_dictSet_self (d : List (Nat × Int)) (k : Nat) (v : Int) :
    dictGet (dictSet d k v) k = some v := by
  by_cases h : dictMem d k = true
  · rw [dictSet, if_pos h]
    exact get_map_update_self d k v h
  · rw [dictSet, if_neg h]
    exact get_append_self d k v (by simpa using h)

theorem dictSet_of_mem (d : List (Nat × Int)) (k : Nat) (v : Int)
    (h : dictMem d k = true) :
    dictSet d k v = d.map (fun p => if p.1 = k then (k, v) else p) := by
  rw [dictSet, if_pos h]

theorem map_update_self (l : List (Nat × Int)) (k : Nat) (v : Int)
    (h : ∀ p ∈ l, p.1 = k → p = (k, v)) :
    l.map (fun p => if p.1 = k then (k, v) else p) = l := by
  induction l with
  | nil => rfl
  | cons p rest ih =>
    rw [List.map_cons, ih (fun q hq => h q (List.mem_cons_of_mem p hq))]
    by_cases hpk : p.1 = k
    · rw [if_pos hpk, h p (List.mem_cons_self p rest) hpk]
    · rw [if_neg hpk]

theorem dictSet_key_entries (d : List (Nat × Int)) (k : Nat) (v : Int) :
    ∀ p ∈ dictSet d k v, p.1 = k → p = (k, v) := by
  intro p hp hpk
  by_cases h : dictMem d k = true
  · rw [dictSet, if_pos h] at hp
    obtain ⟨q, hq, rfl⟩ := List.mem_map.mp hp
    by_cases hqk : q.1 = k
    · simp [hqk]
    · rw [if_neg hqk] at hpk ⊢
      exact absurd hpk hqk
  · rw [dictSet, if_neg h] at hp
    rcases List.mem_append.mp hp with hd | hs
    · exfalso
      apply h
      rw [dictMem_iff]
      exact hpk ▸ List.mem_map_of_mem Prod.fst hd
    · simpa using hs

theorem dictSet_dictSet_same (d : List (Nat × Int)) (k : Nat) (v : Int) :
    dictSet (dictSet d k v) k v = dictSet d k v := by
  rw [dictSet_of_mem (dictSet d k v) k v ((mem_dictSet d k k v).mpr (Or.inr rfl))]
  exact map_update_self _ k v (dictSet_key_entries d k v)

/-- C5 (amended): the join-tracking ledger write is an unconditional dict
assignment, not an insert-if-absent: it records `now` as the user's
pending timestamp (overwriting any previous value, also for a user
already tracked), and it is idempotent only at a fixed time — running the
join handler twice with the same `now` leaves both ledger dicts exactly
as one run does. -/
theorem C5_mark_pending_overwrite (u : Nat) (now : Int) (s : CogState) :
    dictGet (on_member_join true true true u now s).unverified_users u = some now
    ∧ (on_member_join true true true u now
        (on_member_join true true true u now s)).unverified_users
        = (on_member_join true true true u now s).unverified_users
    ∧ (on_member_join true true true u now
        (on_member_join true true true u now s)).recently_verified_users
        = (on_member_join true true true u now s).recently_verified_users := by
  have h1 : (on_member_join true true true u now s).unverified_users
      = dictSet s.unverified_users u now := by
    simp [on_member_join]
  have h3 : (on_member_join true true true u now
      (on_member_join true true true u now s)).unverified_users
      = dictSet (on_member_join true true true u now s).unverified_users u now := by
    simp [on_member_join]
  have h5 : (on_member_join true true true u now
      (on_member_join true true true u now s)).recently_verified_users
      = (on_member_join true true true u now s).recently_verified_users := by
    simp [on_member_join]
  refine ⟨?_, ?_, h5⟩
  · rw [h1]
    exact get_dictSet_self _ _ _
  · rw [h3, h1, dictSet_dictSet_same]

/-- C5 counterexample: user 1 is already tracked as pending with
timestamp 0; a second join-tracking call at time 5 is not a no-op — it
overwrites the timestamp with 5 — so the operation is not idempotent for
an already-tracked user and two calls at different times differ from one
call. -/
theorem C5_counterexample :
    (on_member_join true true true 1 5
        ⟨fun _ => [], [(1, 0)], []⟩).unverified_users ≠ [(1, 0)]
    ∧ (on_member_join true true true 1 5
        ⟨fun _ => [], [(1, 0)], []⟩).unverified_users = [(1, 5)] := by
  refine ⟨?_, ?_⟩ <;> decide

/-- C6 (amended): the cog performs no ledger persistence: `cog_unload`
only cancels the two periodic tasks — the cog state and the snapshot file
slot are returned untouched, nothing is serialized — and `__init__`
starts both tracking dicts empty without reading any snapshot, so a
restart cannot reproduce a non-empty ledger. -/
theorem C6_no_persistence (w : WorldState)
    (snap : Option (List (Nat × Int) × List (Nat × Int)))
    (roles : Nat → List String) :
    (cog_unload w).snapshotFile = w.snapshotFile
    ∧ (cog_unload w).cog = w.cog
    ∧ (cog_unload w).checkUnverifiedRunning = false
    ∧ (cog_unload w).checkActivityRunning = false
    ∧ (initCog snap roles).unverified_users = []
    ∧ (initCog snap roles).recently_verified_users = [] :=
  ⟨rfl, rfl, rfl, rfl, rfl, rfl⟩

/-- C6 counterexample: tearing down a cog whose ledger tracks user 1
writes no snapshot (the file slot stays `none`), and a fresh startup from
that world's snapshot slot yields an empty ledger — the teardown/startup
round trip loses the entry, so the serialize-on-teardown /
deserialize-at-startup claim is false on the code. -/
theorem C6_counterexample :
    (cog_unload ⟨true, true, ⟨fun _ => [], [(1, 0)], []⟩, none⟩).snapshotFile = none
    ∧ dictMem (cog_unload
        ⟨true, true, ⟨fun _ => [], [(1, 0)], []⟩, none⟩).cog.unverified_users 1 = true
    ∧ dictMem (initCog
        (cog_unload ⟨true, true, ⟨fun _ => [], [(1, 0)], []⟩, none⟩).snapshotFile
        (fun _ => [])).unverified_users 1 = false :=
  ⟨rfl, by decide, by decide⟩

/-- C7: whenever the caller fails the Admin-or-Moderator check predicate
or the target does not hold the MustVerify role, the `verify_user`
command leaves the whole cog state (ledger and roles) unchanged and
produces a user-visible rejection outcome rather than a crash (the
check failure is answered by the global command-tree error handler, the
other branches by the command's own followup messages). -/
theorem C7_verify_user_rejection (rolesInit removeOk addOk followupOk callerInGuild : Bool)
    (callerRoles : List String) (target : Nat) (now : Int) (s : CogState)
    (h : is_admin_or_moderator callerInGuild callerRoles = false
         ∨ (s.roles target).contains MUST_VERIFY_ROLE_NAME = false) :
    (verify_user rolesInit removeOk addOk followupOk callerInGuild callerRoles
        target now s).1 = s
    ∧ isRejection (verify_user rolesInit removeOk addOk followupOk callerInGuild
        callerRoles target now s).2 = true := by
  rcases h with h | h
  · constructor
    · simp [verify_user, h]
    · simp [verify_user, h, isRejection]
  · by_cases c1 : is_admin_or_moderator callerInGuild callerRoles = false
    · constructor
      · simp [verify_user, c1]
      · simp [verify_user, c1, isRejection]
    · by_cases c2 : rolesInit = false
      · constructor
        · simp [verify_user, c1, c2]
        · simp [verify_user, c1, c2, isRejection]
      · have h2 : ¬ (MUST_VERIFY_ROLE_NAME ∈ s.roles target) := by simpa using h
        constructor
        · simp [verify_user, c1, c2, h2]
        · simp [verify_user, c1, c2, h2, isRejection]

/-- C7 witness: a roleless caller invoking `verify_user` on user 1 (who is
pending with timestamp 0) is rejected and the state is unchanged. -/
theorem C7_verify_user_rejection_witness :
    (verify_user true true true true true [] 1 10
        ⟨fun _ => [], [(1, 0)], []⟩).1 = ⟨fun _ => [], [(1, 0)], []⟩
    ∧ isRejection (verify_user true true true true true [] 1 10
        ⟨fun _ => [], [(1, 0)], []⟩).2 = true :=
  C7_verify_user_rejection true true true true true [] 1 10
    ⟨fun _ => [], [(1, 0)], []⟩ (Or.inl (by decide))

theorem get_or_create_role_cases (g : List GuildRole) (n : String) :
    ∃ extra : List GuildRole,
      (get_or_create_role g n).1 = g ++ extra
      ∧ (extra = [] ∨ extra = [⟨n, 0⟩])
      ∧ (g.find? (fun r => r.name = n) = none →
          extra = [⟨n, 0⟩] ∧ (get_or_create_role g n).2 = ⟨n, 0⟩) := by
  cases hf : g.find? (fun r => r.name = n) with
  | some r =>
    refine ⟨[], by simp [get_or_create_role, hf], Or.inl rfl, fun hnone => ?_⟩
    exact Option.noConfusion hnone
  | none =>
    exact ⟨[⟨n, 0⟩], by simp [get_or_create_role, hf], Or.inr rfl,
      fun _ => ⟨rfl, by simp [get_or_create_role, hf]⟩⟩

/-- C8: role resolution never creates the Admin or Moderator role.  The
roles appended to the guild by `_fetch_or_create_roles` are only the
MustVerify and Member roles, each created with empty permissions (0);
when the Admin (resp. Moderator) role is missing, the directory slot is
left `none` and a non-fatal error line is logged instead of creating it;
and when MustVerify (resp. Member) is missing it IS created with empty
permissions and stored in the directory. -/
theorem C8_role_directory (guildRoles : List GuildRole) :
    (∃ extra : List GuildRole,
        (fetch_or_create_roles guildRoles).guildRoles = guildRoles ++ extra
        ∧ ∀ r ∈ extra,
            (r.name = MUST_VERIFY_ROLE_NAME ∨ r.name = MEMBER_ROLE_NAME)
            ∧ r.perms = 0 ∧ r.name ≠ ADMIN_ROLE_NAME ∧ r.name ≠ MODERATOR_ROLE_NAME)
    ∧ (guildRoles.find? (fun r => r.name = ADMIN_ROLE_NAME) = none →
        (fetch_or_create_roles guildRoles).admin_role = none
        ∧ (ADMIN_ROLE_NAME ++ " role not found.")
            ∈ (fetch_or_create_roles guildRoles).errors)
    ∧ (guildRoles.find? (fun r => r.name = MODERATOR_ROLE_NAME) = none →
        (fetch_or_create_roles guildRoles).moderator_role = none
        ∧ (MODERATOR_ROLE_NAME ++ " role not found.")
            ∈ (fetch_or_create_roles guildRoles).errors)
    ∧ (guildRoles.find? (fun r => r.name = MUST_VERIFY_ROLE_NAME) = none →
        (fetch_or_create_roles guildRoles).must_verify_role
          = some ⟨MUST_VERIFY_ROLE_NAME, 0⟩)
    ∧ ((get_or_create_role guildRoles MUST_VERIFY_ROLE_NAME).1.find?
          (fun r => r.name = MEMBER_ROLE_NAME) = none →
        (fetch_or_create_roles guildRoles).member_role
          = some ⟨MEMBER_ROLE_NAME, 0⟩) := by
  obtain ⟨e1, he1, hc1, hn1⟩ := get_or_create_role_cases guildRoles MUST_VERIFY_ROLE_NAME
  obtain ⟨e2, he2, hc2, hn2⟩ := get_or_create_role_cases
    (get_or_create_role guildRoles MUST_VERIFY_ROLE_NAME).1 MEMBER_ROLE_NAME
  have hg2def : (fetch_or_create_roles guildRoles).guildRoles
      = (get_or_create_role (get_or_create_role guildRoles MUST_VERIFY_ROLE_NAME).1
          MEMBER_ROLE_NAME).1 := rfl
  have hadmindef : (fetch_or_create_roles guildRoles).admin_role
      = ((get_or_create_role (get_or_create_role guildRoles MUST_VERIFY_ROLE_NAME).1
          MEMBER_ROLE_NAME).1).find? (fun r => r.name = ADMIN_ROLE_NAME) := rfl
  have hmoddef : (fetch_or_create_roles guildRoles).moderator_role
      = ((get_or_create_role (get_or_create_role guildRoles MUST_VERIFY_ROLE_NAME).1
          MEMBER_ROLE_NAME).1).find? (fun r => r.name = MODERATOR_ROLE_NAME) := rfl
  have herrdef : (fetch_or_create_roles guildRoles).errors
      = (if ((fetch_or_create_roles guildRoles).admin_role).isNone
          then [ADMIN_ROLE_NAME ++ " role not found."] else [])
        ++ (if ((fetch_or_create_roles guildRoles).moderator_role).isNone
          then [(MODERATOR_ROLE_NAME ++ " role not found.")] else []) := rfl
  have he1admin : e1.find? (fun r => r.name = ADMIN_ROLE_NAME) = none := by
    rcases hc1 with rfl | rfl
    · rfl
    · decide
  have he2admin : e2.find? (fun r => r.name = ADMIN_ROLE_NAME) = none := by
    rcases hc2 with rfl | rfl
    · rfl
    · decide
  have he1mod : e1.find? (fun r => r.name = MODERATOR_ROLE_NAME) = none := by
    rcases hc1 with rfl | rfl
    · rfl
    · decide
  have he2mod : e2.find? (fun r => r.name = MODERATOR_ROLE_NAME) = none := by
    rcases hc2 with rfl | rfl
    · rfl
    · decide
  refine ⟨⟨e1 ++ e2, ?_, ?_⟩, ?_, ?_, ?_, ?_⟩
  · rw [hg2def, he2, he1, List.append_assoc]
  · intro r hr
    rcases List.mem_append.mp hr with h | h
    · rcases hc1 with rfl | rfl
      · simp at h
      · simp only [List.mem_singleton] at h
        subst h
        exact ⟨Or.inl rfl, rfl, by decide, by decide⟩
    · rcases hc2 with rfl | rfl
      · simp at h
      · simp only [List.mem_singleton] at h
        subst h
        exact ⟨Or.inr rfl, rfl, by decide, by decide⟩
  · intro hA
    have hA2 : (fetch_or_create_roles guildRoles).admin_role = none := by
      rw [hadmindef, he2, he1, List.find?_append, List.find?_append, hA,
        he1admin, he2admin]
      rfl
    refine ⟨hA2, ?_⟩
    rw [herrdef, hA2]
    simp
  · intro hM
    have hM2 : (fetch_or_create_roles guildRoles).moderator_role = none := by
      rw [hmoddef, he2, he1, List.find?_append, List.find?_append, hM,
        he1mod, he2mod]
      rfl
    refine ⟨hM2, ?_⟩
    rw [herrdef, hM2]
    simp
  · intro hMV
    have hmvdef : (fetch_or_create_roles guildRoles).must_verify_role
        = some (get_or_create_role guildRoles MUST_VERIFY_ROLE_NAME).2 := rfl
    rw [hmvdef, (hn1 hMV).2]
  · intro hMEM
    have hmemdef : (fetch_or_create_roles guildRoles).member_role
        = some (get_or_create_role
            (get_or_create_role guildRoles MUST_VERIFY_ROLE_NAME).1 MEMBER_ROLE_NAME).2 := rfl
    rw [hmemdef, (hn2 hMEM).2]

/-- C8 witness: on a guild with no roles at all, resolution leaves the
Admin and Moderator slots empty and logs both error lines, while creating
MustVerify and Member with empty permissions. -/
theorem C8_role_directory_witness :
    (fetch_or_create_roles []).admin_role = none
    ∧ (ADMIN_ROLE_NAME ++ " role not found.") ∈ (fetch_or_create_roles []).errors
    ∧ (fetch_or_create_roles []).moderator_role = none
    ∧ (MODERATOR_ROLE_NAME ++ " role not found.") ∈ (fetch_or_create_roles []).errors
    ∧ (fetch_or_create_roles []).must_verify_role = some ⟨MUST_VERIFY_ROLE_NAME, 0⟩
    ∧ (fetch_or_create_roles []).member_role = some ⟨MEMBER_ROLE_NAME, 0⟩ := by
  have h := C8_role_directory []
  exact ⟨(h.2.1 rfl).1, (h.2.1 rfl).2, (h.2.2.1 rfl).1, (h.2.2.1 rfl).2,
    h.2.2.2.1 rfl, h.2.2.2.2 (by decide)⟩

end VerificationBot
